import Mathlib

/-
Verification development for the openapi-mcp-server repository.

The TypeScript sources under src/ are shallowly embedded below:
  * src/src/api-client.ts : class APIClient (initialize, getBaseUrl,
    parseOperations, executeOperation, processParameterValue,
    determineContentType, processRequestBody).
  * The SchemaResolver of tool-generator.ts is not part of src/ (only its
    tests are), so it is modelled from the spec where needed.

JavaScript runtime values are modelled by the inductive JsValue; the JS
builtins the code calls (JSON.parse, Number, String, split, trim,
encodeURIComponent, string replace) are modelled by executable Lean
functions named js* / json* below.  Fallible code is embedded with
Except/Option; a thrown JS error becomes Except.error carrying the
message string.
-/

namespace OpenapiMcp

/-- Model of a JavaScript runtime value, as handled by api-client.ts
(arguments, parameter values, request bodies). -/
inductive JsValue where
  | null
  | undefined
  | bool (b : Bool)
  | num (q : Rat)
  | str (s : String)
  | arr (elems : List JsValue)
  | obj (fields : List (String × JsValue))

instance : Inhabited JsValue := ⟨JsValue.undefined⟩

/-- The whitespace set used by the JS builtins String.prototype.trim and
Number (WhiteSpace plus LineTerminator code points). -/
def isJsWhitespace (c : Char) : Bool :=
  c == ' ' || c == '\t' || c == '\n' || c == '\r' ||
  c.toNat == 0x0B || c.toNat == 0x0C || c.toNat == 0xA0 ||
  c.toNat == 0x1680 || (0x2000 ≤ c.toNat && c.toNat ≤ 0x200A) ||
  c.toNat == 0x2028 || c.toNat == 0x2029 || c.toNat == 0x202F ||
  c.toNat == 0x205F || c.toNat == 0x3000 || c.toNat == 0xFEFF

/-- Model of String.prototype.trim. -/
def jsTrim (s : String) : String :=
  String.mk (((s.toList.dropWhile isJsWhitespace).reverse.dropWhile isJsWhitespace).reverse)

/-- Model of String.prototype.toLowerCase (ASCII range, which is all the
code compares: "true" / "false"). -/
def jsToLower (s : String) : String :=
  String.mk (s.toList.map Char.toLower)

/-- Model of String.prototype.toUpperCase (used on HTTP method names). -/
def jsToUpper (s : String) : String :=
  String.mk (s.toList.map Char.toUpper)

/-- Model of Array.prototype.join with a separator. -/
def joinList (sep : String) : List String → String
  | [] => ""
  | [x] => x
  | x :: xs => x ++ sep ++ joinList sep xs

/-- Model of String.prototype.split(",") : split on every comma. -/
def splitCommaAux : List Char → List Char → List String
  | [], acc => [String.mk acc.reverse]
  | ',' :: rest, acc => String.mk acc.reverse :: splitCommaAux rest []
  | c :: rest, acc => splitCommaAux rest (c :: acc)

/-- Model of value.split(","). -/
def splitOnComma (s : String) : List String :=
  splitCommaAux s.toList []

/-- Decimal digit test for the numeric models. -/
def isDigitChar (c : Char) : Bool :=
  '0' ≤ c && c ≤ '9'

/-- Value of a list of decimal digit characters. -/
def digitsToNat (ds : List Char) : Nat :=
  ds.foldl (fun a c => a * 10 + (c.toNat - 48)) 0

/-- Rational value of sign, integer digits value, fraction digits and a
base-10 exponent, as both JSON and JS numeric literals denote it.  (JS
numbers are IEEE doubles; exact rationals are the idealisation used
throughout this embedding.) -/
def mkDecimalRat (neg : Bool) (ip : Nat) (fracDs : List Char) (ex : Int) : Rat :=
  let fLen := fracDs.length
  let mant : Nat := ip * 10 ^ fLen + digitsToNat fracDs
  let e10 : Int := ex - fLen
  let mag : Rat :=
    if 0 ≤ e10 then ((mant * 10 ^ e10.toNat : Nat) : Rat)
    else (mant : Rat) / ((10 ^ (-e10).toNat : Nat) : Rat)
  if neg then -mag else mag

/-- Render a Rat the way JS renders a number, for the integral case (the
only case the repository ever stringifies in the claims below); other
rationals get a fraction rendering as a best-effort stand-in. -/
def ratToJsString (q : Rat) : String :=
  if q.den == 1 then toString q.num else toString q.num ++ "/" ++ toString q.den

/-- JSON whitespace (the only four characters JSON.parse skips). -/
def isJsonWs (c : Char) : Bool :=
  c == ' ' || c == '\t' || c == '\n' || c == '\r'

/-- Drop leading JSON whitespace. -/
def skipJsonWs (cs : List Char) : List Char :=
  cs.dropWhile isJsonWs

/-- Hex digit value, for \uXXXX escapes. -/
def hexVal (c : Char) : Option Nat :=
  if '0' ≤ c && c ≤ '9' then some (c.toNat - 48)
  else if 'a' ≤ c && c ≤ 'f' then some (c.toNat - 87)
  else if 'A' ≤ c && c ≤ 'F' then some (c.toNat - 55)
  else none

/-- Body of a JSON string literal (after the opening quote): returns the
decoded characters and the remaining input, or none on malformed input. -/
def parseJStringChars : List Char → Option (List Char × List Char)
  | [] => none
  | '"' :: rest => some ([], rest)
  | '\\' :: rest =>
    match rest with
    | '"' :: r => (parseJStringChars r).map (fun t => ('"' :: t.1, t.2))
    | '\\' :: r => (parseJStringChars r).map (fun t => ('\\' :: t.1, t.2))
    | '/' :: r => (parseJStringChars r).map (fun t => ('/' :: t.1, t.2))
    | 'b' :: r => (parseJStringChars r).map (fun t => ('\x08' :: t.1, t.2))
    | 'f' :: r => (parseJStringChars r).map (fun t => ('\x0C' :: t.1, t.2))
    | 'n' :: r => (parseJStringChars r).map (fun t => ('\n' :: t.1, t.2))
    | 'r' :: r => (parseJStringChars r).map (fun t => ('\r' :: t.1, t.2))
    | 't' :: r => (parseJStringChars r).map (fun t => ('\t' :: t.1, t.2))
    | 'u' :: h1 :: h2 :: h3 :: h4 :: r =>
      match hexVal h1, hexVal h2, hexVal h3, hexVal h4 with
      | some a, some b, some c, some d =>
        (parseJStringChars r).map
          (fun t => (Char.ofNat (((a * 16 + b) * 16 + c) * 16 + d) :: t.1, t.2))
      | _, _, _, _ => none
    | _ => none
  | c :: rest =>
    if c.toNat < 32 then none
    else (parseJStringChars rest).map (fun t => (c :: t.1, t.2))

/-- JSON string literal body, packaged as a String. -/
def parseJStringBody (cs : List Char) : Option (String × List Char) :=
  (parseJStringChars cs).map (fun t => (String.mk t.1, t.2))

/-- Longest run of decimal digits at the front of the input. -/
def takeDigits (cs : List Char) : List Char × List Char :=
  (cs.takeWhile isDigitChar, cs.dropWhile isDigitChar)

/-- Fraction and exponent tail of a JSON number, given the sign and the
already-read integer part. -/
def parseJNumberTail (neg : Bool) (ip : Nat) (cs : List Char) : Option (Rat × List Char) :=
  let fr : Option (List Char) × List Char :=
    match cs with
    | '.' :: rest =>
      let t := takeDigits rest
      (some t.1, t.2)
    | _ => (none, cs)
  match fr.1 with
  | some [] => none
  | _ =>
    let fracDs := fr.1.getD []
    match fr.2 with
    | e :: rest1 =>
      if e == 'e' || e == 'E' then
        let se : Bool × List Char :=
          match rest1 with
          | '+' :: r => (false, r)
          | '-' :: r => (true, r)
          | _ => (false, rest1)
        let t := takeDigits se.2
        if t.1.isEmpty then none
        else
          some (mkDecimalRat neg ip fracDs
                  (if se.1 then -(digitsToNat t.1 : Int) else (digitsToNat t.1 : Int)), t.2)
      else some (mkDecimalRat neg ip fracDs 0, fr.2)
    | [] => some (mkDecimalRat neg ip fracDs 0, [])

/-- A JSON number at the front of the input (JSON grammar: no leading +,
no leading zeros, fraction digits mandatory after a dot). -/
def parseJNumber (cs : List Char) : Option (Rat × List Char) :=
  let sn : Bool × List Char :=
    match cs with
    | '-' :: rest => (true, rest)
    | _ => (false, cs)
  match sn.2 with
  | '0' :: rest =>
    match rest with
    | c :: _ =>
      if isDigitChar c then none else parseJNumberTail sn.1 0 rest
    | [] => parseJNumberTail sn.1 0 []
  | c :: _ =>
    if isDigitChar c then
      let t := takeDigits sn.2
      parseJNumberTail sn.1 (digitsToNat t.1) t.2
    else none
  | [] => none

/-- The three mutually recursive entry points of the JSON.parse model,
closed under one fuel step. -/
structure JParsers where
  val : List Char → Option (JsValue × List Char)
  arrLoop : List Char → Option (List JsValue × List Char)
  objLoop : List Char → Option (List (String × JsValue) × List Char)

/-- Fuel-indexed recursive-descent JSON parser (defined through Nat.rec so
that it is structural and kernel-reducible).  Each fuel step may call the
previous step's entry points. -/
def jpAux : Nat → JParsers := fun n =>
  Nat.rec (motive := fun _ => JParsers)
    { val := fun _ => none, arrLoop := fun _ => none, objLoop := fun _ => none }
    (fun _ p =>
      { val := fun chars =>
          match skipJsonWs chars with
          | [] => none
          | 'n' :: 'u' :: 'l' :: 'l' :: rest => some (.null, rest)
          | 't' :: 'r' :: 'u' :: 'e' :: rest => some (.bool true, rest)
          | 'f' :: 'a' :: 'l' :: 's' :: 'e' :: rest => some (.bool false, rest)
          | '"' :: rest => (parseJStringBody rest).map (fun r => (.str r.1, r.2))
          | '[' :: rest =>
            match skipJsonWs rest with
            | ']' :: rest2 => some (.arr [], rest2)
            | _ => (p.arrLoop rest).map (fun r => (.arr r.1, r.2))
          | '{' :: rest =>
            match skipJsonWs rest with
            | '}' :: rest2 => some (.obj [], rest2)
            | _ => (p.objLoop rest).map (fun r => (.obj r.1, r.2))
          | c :: rest =>
            if c == '-' || isDigitChar c then
              (parseJNumber (c :: rest)).map (fun r => (.num r.1, r.2))
            else none,
        arrLoop := fun chars =>
          match p.val chars with
          | none => none
          | some (v, rest) =>
            match skipJsonWs rest with
            | ',' :: rest2 =>
              match p.arrLoop rest2 with
              | some (vs, rest3) => some (v :: vs, rest3)
              | none => none
            | ']' :: rest2 => some ([v], rest2)
            | _ => none,
        objLoop := fun chars =>
          match skipJsonWs chars with
          | '"' :: rest =>
            match parseJStringBody rest with
            | none => none
            | some (k, rest1) =>
              match skipJsonWs rest1 with
              | ':' :: rest2 =>
                match p.val rest2 with
                | none => none
                | some (v, rest3) =>
                  match skipJsonWs rest3 with
                  | ',' :: rest4 => (p.objLoop rest4).map (fun r => ((k, v) :: r.1, r.2))
                  | '}' :: rest4 => some ([(k, v)], rest4)
                  | _ => none
              | _ => none
          | _ => none })
    n

/-- Model of JSON.parse: some value on success, none where JS throws a
SyntaxError (trailing garbage included).  The fuel is generous: every
two fuel steps consume at least one input character. -/
def jsonParse (s : String) : Option JsValue :=
  match (jpAux (2 * s.length + 4)).val s.toList with
  | some (v, rest) => if (skipJsonWs rest).isEmpty then some v else none
  | none => none

/-- JS numeric literal after trimming: non-decimal integer literals
(0x / 0b / 0o) or a signed decimal literal.  Strings outside this grammar
(including "Infinity", which Rat cannot carry) map to none, the model of
NaN. -/
def parseRadixDigit (radix : Nat) (c : Char) : Option Nat :=
  match hexVal c with
  | some v => if v < radix then some v else none
  | none => none

/-- Non-decimal integer literal body in the given radix. -/
def parseRadixNat (radix : Nat) (cs : List Char) : Option Nat :=
  match cs with
  | [] => none
  | _ =>
    cs.foldl (fun acc c =>
      match acc, parseRadixDigit radix c with
      | some a, some v => some (a * radix + v)
      | _, _ => none) (some 0)

/-- Signed decimal JS literal ("5.", ".5", "5.e2" are all legal, unlike
JSON); the whole input must be consumed. -/
def parseJsDecimal (cs : List Char) : Option Rat :=
  let sn : Bool × List Char :=
    match cs with
    | '-' :: rest => (true, rest)
    | '+' :: rest => (false, rest)
    | _ => (false, cs)
  let ipt := takeDigits sn.2
  let fr : Option (List Char) × List Char :=
    match ipt.2 with
    | '.' :: rest =>
      let t := takeDigits rest
      (some t.1, t.2)
    | _ => (none, ipt.2)
  if ipt.1.isEmpty && (fr.1.getD []).isEmpty then none
  else
    match fr.2 with
    | [] => some (mkDecimalRat sn.1 (digitsToNat ipt.1) (fr.1.getD []) 0)
    | e :: rest1 =>
      if e == 'e' || e == 'E' then
        let se : Bool × List Char :=
          match rest1 with
          | '+' :: r => (false, r)
          | '-' :: r => (true, r)
          | _ => (false, rest1)
        let t := takeDigits se.2
        if t.1.isEmpty || !t.2.isEmpty then none
        else
          some (mkDecimalRat sn.1 (digitsToNat ipt.1) (fr.1.getD [])
                  (if se.1 then -(digitsToNat t.1 : Int) else (digitsToNat t.1 : Int)))
      else none

/-- Model of Number(string): trim JS whitespace; the empty remainder is 0;
otherwise the value of the numeric literal, or none (JS NaN). -/
def jsStringToNumber (s : String) : Option Rat :=
  match (jsTrim s).toList with
  | [] => some 0
  | '0' :: x :: rest =>
    if x == 'x' || x == 'X' then (parseRadixNat 16 rest).map (fun n => ((n : Nat) : Rat))
    else if x == 'b' || x == 'B' then (parseRadixNat 2 rest).map (fun n => ((n : Nat) : Rat))
    else if x == 'o' || x == 'O' then (parseRadixNat 8 rest).map (fun n => ((n : Nat) : Rat))
    else parseJsDecimal ('0' :: x :: rest)
  | cs => parseJsDecimal cs

/-- Fuel-indexed model of JS ToString on values (fuel only limits array
nesting; 100 is far beyond anything the repository builds). -/
def jsStrAux : Nat → JsValue → String := fun n =>
  Nat.rec (motive := fun _ => JsValue → String)
    (fun _ => "")
    (fun _ prev v =>
      match v with
      | .null => "null"
      | .undefined => "undefined"
      | .bool true => "true"
      | .bool false => "false"
      | .str s => s
      | .num q => ratToJsString q
      | .arr xs =>
        joinList "," (xs.map (fun x =>
          match x with
          | .null => ""
          | .undefined => ""
          | _ => prev x))
      | .obj _ => "[object Object]")
    n

/-- Model of String(value) / template-literal interpolation. -/
def jsStringOfValue (v : JsValue) : String := jsStrAux 100 v

/-- Model of Number(value) on any JS value: none models NaN. -/
def jsToNumber : JsValue → Option Rat
  | .num q => some q
  | .str s => jsStringToNumber s
  | .bool true => some 1
  | .bool false => some 0
  | .null => some 0
  | .undefined => none
  | .arr xs => jsStringToNumber (jsStringOfValue (.arr xs))
  | .obj _ => none

/-- Model of encodeURIComponent: unreserved characters pass through, all
others are percent-encoded from their UTF-8 bytes. -/
def isUriUnreserved (c : Char) : Bool :=
  c.isAlphanum || c == '-' || c == '_' || c == '.' || c == '!' ||
  c == '~' || c == '*' || c == '(' || c == ')' || c == '\''

/-- Upper-case hex digit of a value below 16. -/
def hexDigitChar (n : Nat) : Char :=
  if n < 10 then Char.ofNat (48 + n) else Char.ofNat (55 + n)

/-- UTF-8 bytes of a single character (code points below 0x110000). -/
def utf8Bytes (c : Char) : List Nat :=
  let n := c.toNat
  if n < 0x80 then [n]
  else if n < 0x800 then [0xC0 + n / 64, 0x80 + n % 64]
  else if n < 0x10000 then [0xE0 + n / 4096, 0x80 + n / 64 % 64, 0x80 + n % 64]
  else [0xF0 + n / 262144, 0x80 + n / 4096 % 64, 0x80 + n / 64 % 64, 0x80 + n % 64]

/-- Percent-encoding of a byte. -/
def percentByte (b : Nat) : List Char :=
  ['%', hexDigitChar (b / 16), hexDigitChar (b % 16)]

/-- Model of encodeURIComponent. -/
def encodeURIComponent (s : String) : String :=
  String.mk (s.toList.foldr
    (fun c acc => (if isUriUnreserved c then [c] else (utf8Bytes c).foldr (fun b a => percentByte b ++ a) []) ++ acc) [])

/-- Replace the first occurrence of a pattern, as the two-string form of
String.prototype.replace does (character-list worker). -/
def replaceFirstL : List Char → List Char → List Char → List Char
  | [], _, _ => []
  | h :: t, pat, repl =>
    if (h :: t).take pat.length == pat then repl ++ (h :: t).drop pat.length
    else h :: replaceFirstL t pat repl

/-- Model of url.replace(pattern, replacement) with a plain-string
pattern: first occurrence only. -/
def jsReplaceFirst (s pat repl : String) : String :=
  String.mk (replaceFirstL s.toList pat.toList repl.toList)

/-
Embedding of src/src/api-client.ts.

OpenAPI document shapes are embedded as structures whose optional fields
are Option types (a JS `undefined` field is none).  JS objects used as
string-keyed maps (args, queryParams, headers, Map<string, OperationInfo>)
are association lists; assignment keeps the original position of an
existing key and appends new keys, as both JS objects and Map.set do.
-/

/-- JS truthiness of an optional string: undefined and the empty string
are falsy. -/
def truthyStr : Option String → Option String
  | some s => if s = "" then none else some s
  | none => none

/-- Model of the JS expression `a || b` on optional strings followed by a
truthiness test (as in `headers[..] || headers[..]` and
`options.baseUrl || ...`). -/
def jsOrOptStr (a b : Option String) : Option String :=
  match truthyStr a with
  | some x => some x
  | none => truthyStr b

/-- Model of `a || b` where a is an optional string and b a fallback
string (`operation.operationId || generated`). -/
def jsOrStr (a : Option String) (b : String) : String :=
  match truthyStr a with
  | some x => x
  | none => b

/-- Assignment m[k] = v on a JS object / Map.set: overwrite in place if
the key exists, else append. -/
def jsAssocSet {α : Type} (m : List (String × α)) (k : String) (v : α) : List (String × α) :=
  if m.any (fun p => p.1 = k) then m.map (fun p => if p.1 = k then (k, v) else p)
  else m ++ [(k, v)]

/-- Assignment on the query map. -/
def jsSet (m : List (String × JsValue)) (k : String) (v : JsValue) : List (String × JsValue) :=
  jsAssocSet m k v

/-- Assignment on a string-valued JS object (headers). -/
def jsSetStr (m : List (String × String)) (k : String) (v : String) : List (String × String) :=
  jsAssocSet m k v

/-- Spread merge { ...a, ...b }: entries of b override entries of a. -/
def jsSpreadMerge (a b : List (String × String)) : List (String × String) :=
  b.foldl (fun acc kv => jsSetStr acc kv.1 kv.2) a

/-- Reading args[name]: absent keys are undefined. -/
def jsLookup (args : List (String × JsValue)) (name : String) : JsValue :=
  match args.lookup name with
  | some v => v
  | none => .undefined

/-- The test `value === undefined || value === null` of executeOperation. -/
def isNullish : JsValue → Bool
  | .undefined => true
  | .null => true
  | _ => false

/-- The test `args.body !== undefined`. -/
def isUndef : JsValue → Bool
  | .undefined => true
  | _ => false

/-- OpenAPIV3.SchemaObject as far as processParameterValue reads it: only
the type keyword. -/
structure ParamSchema where
  type : Option String := none

/-- OpenAPIV3.ParameterObject as far as api-client.ts reads it. -/
structure Param where
  name : String
  «in» : String
  required : Option Bool := none
  schema : Option ParamSchema := none

/-- A media-type entry of a request body's content map (api-client.ts
only ever reads the keys). -/
structure MediaTypeObject where
  dummySchema : Option ParamSchema := none

/-- OpenAPIV3.RequestBodyObject as far as api-client.ts reads it.  The
source guards `requestBody.content || {}`, hence the Option. -/
structure RequestBody where
  content : Option (List (String × MediaTypeObject)) := none

/-- OpenAPIV3.OperationObject as far as parseOperations reads it. -/
structure Operation where
  operationId : Option String := none
  parameters : Option (List Param) := none
  requestBody : Option RequestBody := none

/-- A path item: the seven fixed verbs plus path-level parameters. -/
structure PathItem where
  get : Option Operation := none
  post : Option Operation := none
  put : Option Operation := none
  patch : Option Operation := none
  delete : Option Operation := none
  options : Option Operation := none
  head : Option Operation := none
  parameters : Option (List Param) := none

/-- A server entry of the document. -/
structure Server where
  url : String

/-- OpenAPIV3.Document as far as APIClient reads it. -/
structure OpenAPIDocument where
  servers : Option (List Server) := none
  paths : List (String × Option PathItem) := []

/-- The OperationInfo record parseOperations stores per identifier. -/
structure OperationInfo where
  method : String
  path : String
  operation : Operation
  parameters : List Param
  requestBody : Option RequestBody

/-- ServerOptions as far as APIClient reads it. -/
structure ServerOptions where
  baseUrl : Option String := none
  additionalHeaders : List (String × String) := []
  timeout : Option Nat := none
  username : Option String := none
  password : Option String := none

/-- The post-initialize state of an APIClient: resolved base URL plus the
operation index. -/
structure ClientState where
  baseUrl : String
  operations : List (String × OperationInfo)

/-- getBaseUrl (api-client.ts lines 43-48): first declared server URL,
else a thrown configuration error. -/
def getBaseUrl (schema : OpenAPIDocument) : Except String String :=
  match schema.servers with
  | some (s :: _) => .ok s.url
  | _ => .error "No server URL found in OpenAPI schema and no base URL provided"

/-- The `['get', 'post', 'put', 'patch', 'delete', 'options', 'head']`
iteration of parseOperations, with `pathItem[method]` read out. -/
def pathItemMethods (pi : PathItem) : List (String × Option Operation) :=
  [("get", pi.get), ("post", pi.post), ("put", pi.put), ("patch", pi.patch),
   ("delete", pi.delete), ("options", pi.options), ("head", pi.head)]

/-- The fallback identifier of parseOperations (api-client.ts line 60):
method, one underscore, then the path with each character outside
[a-zA-Z0-9] replaced by an underscore (the regex replace is global and
per character: runs are NOT collapsed). -/
def generatedOperationId (method pathKey : String) : String :=
  method ++ "_" ++ String.mk (pathKey.toList.map (fun c => if c.isAlphanum then c else '_'))

/-- The identifier an operation is registered under:
`operation.operationId || generated`. -/
def operationKey (method pathKey : String) (op : Operation) : String :=
  jsOrStr op.operationId (generatedOperationId method pathKey)

/-- parseOperations (api-client.ts lines 50-82): walk paths in document
order, the seven verbs in the fixed order, and Map.set each entry under
its identifier (so a duplicate identifier silently overwrites the
earlier entry). -/
def parseOperations (paths : List (String × Option PathItem)) : List (String × OperationInfo) :=
  paths.foldl (fun ops pathEntry =>
    match pathEntry.2 with
    | none => ops
    | some pathItem =>
      (pathItemMethods pathItem).foldl (fun ops m =>
        match m.2 with
        | none => ops
        | some operation =>
          jsAssocSet ops (operationKey m.1 pathEntry.1 operation)
            { method := jsToUpper m.1,
              path := pathEntry.1,
              operation := operation,
              parameters := pathItem.parameters.getD [] ++ operation.parameters.getD [],
              requestBody := operation.requestBody }) ops) []

/-- initialize (api-client.ts lines 37-41): resolve the base URL
(`options.baseUrl || getBaseUrl(schema)`, so an empty-string override is
falsy and ignored), then build the operation index.  An error here is
thrown before any operation is registered: no ClientState exists. -/
def initializeClient (options : ServerOptions) (schema : OpenAPIDocument) :
    Except String ClientState := do
  let base ← match truthyStr options.baseUrl with
    | some u => Except.ok u
    | none => getBaseUrl schema
  Except.ok { baseUrl := base, operations := parseOperations schema.paths }

/-- The shared integer/number branch of processParameterValue:
`Number(value)` with a NaN check. -/
def coerceNumber (param : Param) (value : JsValue) : Except String JsValue :=
  match jsToNumber value with
  | some q => .ok (.num q)
  | none => .error ("Parameter " ++ param.name ++ " must be a valid number, got: " ++ jsStringOfValue value)

/-- processParameterValue (api-client.ts lines 176-216): coerce a present
argument to its declared schema type; a thrown coercion error is
Except.error with the source's message. -/
def processParameterValue (param : Param) (value : JsValue) : Except String JsValue :=
  match param.schema with
  | none => .ok value
  | some schema =>
    match schema.type with
    | some "integer" => coerceNumber param value
    | some "number" => coerceNumber param value
    | some "boolean" =>
      match value with
      | .bool b => .ok (.bool b)
      | .str s =>
        if jsToLower s = "true" then .ok (.bool true)
        else if jsToLower s = "false" then .ok (.bool false)
        else .error ("Parameter " ++ param.name ++ " must be a boolean, got: " ++ jsStringOfValue value)
      | _ => .error ("Parameter " ++ param.name ++ " must be a boolean, got: " ++ jsStringOfValue value)
    | some "array" =>
      match value with
      | .arr xs => .ok (.arr xs)
      | .str s =>
        match jsonParse s with
        | some v => .ok v
        | none => .ok (.arr ((splitOnComma s).map (fun v => .str (jsTrim v))))
      | _ => .error ("Parameter " ++ param.name ++ " must be an array, got: " ++ jsStringOfValue value)
    | _ => .ok (.str (jsStringOfValue value))

/-- determineContentType (api-client.ts lines 218-234): caller-set
Content-Type header (either capitalisation, JS-truthy) wins; otherwise
the first of the fixed preference chain present among the declared media
types; otherwise the first declared type (none when there is none). -/
def determineContentType (requestBody : RequestBody) (headers : List (String × String)) :
    Option String :=
  match jsOrOptStr (headers.lookup "Content-Type") (headers.lookup "content-type") with
  | some existing => some existing
  | none =>
    let contentTypes := (requestBody.content.getD []).map Prod.fst
    if contentTypes.contains "application/json" then some "application/json"
    else if contentTypes.contains "application/xml" then some "application/xml"
    else if contentTypes.contains "text/xml" then some "text/xml"
    else if contentTypes.contains "application/x-www-form-urlencoded" then
      some "application/x-www-form-urlencoded"
    else if contentTypes.contains "multipart/form-data" then some "multipart/form-data"
    else contentTypes.head?

/-- Object.entries(body) for the form-urlencoded branch: objects give
their fields, arrays their indexed elements, anything else is not an
object. -/
def jsEntries : JsValue → Option (List (String × JsValue))
  | .obj fields => some fields
  | .arr xs => some ((List.range xs.length).zip xs |>.map (fun p => (toString p.1, p.2)))
  | _ => none

/-- application/x-www-form-urlencoded encoding of key/value pairs via
URLSearchParams (percent-encoding with + for spaces). -/
def formEncodeStr (s : String) : String :=
  String.mk (s.toList.foldr
    (fun c acc =>
      (if c == ' ' then ['+']
       else if isUriUnreserved c then [c]
       else (utf8Bytes c).foldr (fun b a => percentByte b ++ a) []) ++ acc) [])

/-- processRequestBody (api-client.ts lines 236-256). -/
def processRequestBody (body : JsValue) (contentType : Option String) : Except String JsValue :=
  match contentType with
  | none => .ok body
  | some ct =>
    if ct = "application/json" then
      match body with
      | .str s =>
        match jsonParse s with
        | some v => .ok v
        | none => .error "Unexpected token in JSON"
      | _ => .ok body
    else if ct = "application/x-www-form-urlencoded" then
      match jsEntries body with
      | some entries =>
        .ok (.str (joinList "&" (entries.map
          (fun kv => formEncodeStr kv.1 ++ "=" ++ formEncodeStr (jsStringOfValue kv.2)))))
      | none => .ok body
    else .ok body

/-- The mutable state of executeOperation's parameter loop: the URL under
substitution, the query map, the per-request headers and the collected
missing-required-parameter descriptions. -/
structure LoopState where
  url : String
  query : List (String × JsValue)
  headers : List (String × String)
  missing : List String

/-- One routing step of the loop's switch on param.in; unknown locations
(e.g. cookie) fall through with no routing, as the source switch does. -/
def routeParam (p : Param) (v : JsValue) (st : LoopState) : LoopState :=
  match p.«in» with
  | "path" =>
    { st with url := jsReplaceFirst st.url ("\x7b" ++ p.name ++ "\x7d")
                        (encodeURIComponent (jsStringOfValue v)) }
  | "query" => { st with query := jsSet st.query p.name v }
  | "header" => { st with headers := jsSetStr st.headers p.name (jsStringOfValue v) }
  | _ => st

/-- The parameter loop of executeOperation (api-client.ts lines 101-125):
absent/null values of required parameters are collected (name plus
location), present values are coerced (a coercion error aborts the loop
at once) and routed. -/
def processParams (args : List (String × JsValue)) :
    List Param → LoopState → Except String LoopState
  | [], st => .ok st
  | p :: rest, st =>
    if isNullish (jsLookup args p.name) then
      processParams args rest
        { st with missing :=
            st.missing ++ (if p.required.getD false then [p.name ++ " (" ++ p.«in» ++ ")"] else []) }
    else
      match processParameterValue p (jsLookup args p.name) with
      | .error e => .error e
      | .ok pv => processParams args rest (routeParam p pv st)

/-- The axios request config assembled by executeOperation; producing it
is the point at which the single outbound HTTP call is issued, so a
.error result of executeOperation means no network I/O happened. -/
structure RequestConfig where
  method : String
  url : String
  params : List (String × JsValue)
  headers : List (String × String)
  data : JsValue

/-- executeOperation (api-client.ts lines 84-147) up to the outbound
call: identifier lookup, the parameter loop, the aggregated
missing-required-parameters error, request-body content negotiation and
encoding, and the final config.  defaultHeaders stands for
this.client.defaults.headers.common. -/
def executeOperation (defaultHeaders : List (String × String))
    (ops : List (String × OperationInfo)) (baseUrl : String)
    (operationId : String) (args : List (String × JsValue)) :
    Except String RequestConfig :=
  match ops.lookup operationId with
  | none => .error ("Operation " ++ operationId ++ " not found")
  | some info =>
    match processParams args info.parameters
        { url := baseUrl ++ info.path, query := [], headers := [], missing := [] } with
    | .error e => .error e
    | .ok st =>
      if st.missing.isEmpty then
        let bodyArg := jsLookup args "body"
        match info.requestBody with
        | some rb =>
          if isUndef bodyArg then
            .ok { method := info.method, url := st.url, params := st.query,
                  headers := jsSpreadMerge defaultHeaders st.headers, data := .undefined }
          else
            let contentType := determineContentType rb st.headers
            match processRequestBody bodyArg contentType with
            | .error e => .error e
            | .ok body =>
              let headers' :=
                match contentType with
                | some ct =>
                  if ct ≠ "" ∧ (truthyStr (st.headers.lookup "Content-Type")).isNone then
                    jsSetStr st.headers "Content-Type" ct
                  else st.headers
                | none => st.headers
              .ok { method := info.method, url := st.url, params := st.query,
                    headers := jsSpreadMerge defaultHeaders headers', data := body }
        | none =>
          .ok { method := info.method, url := st.url, params := st.query,
                headers := jsSpreadMerge defaultHeaders st.headers, data := .undefined }
      else .error ("Missing required parameters: " ++ joinList ", " st.missing)

/-
Claim-side characterisations: executable definitions written from the
words of the spec sentences under verification, to be compared with the
embedded source functions, plus derived views of the source used to
state the theorems.
-/

/-- Prefix test on character lists. -/
def startsWithL : List Char → List Char → Bool
  | _, [] => true
  | [], _ :: _ => false
  | c :: cs, p :: ps => c == p && startsWithL cs ps

/-- Substring test on character lists. -/
def containsSubL : List Char → List Char → Bool
  | [], pat => pat.isEmpty
  | c :: cs, pat => startsWithL (c :: cs) pat || containsSubL cs pat

/-- Whether pat occurs as a substring of s (used to check what an error
message does and does not name). -/
def containsSub (s pat : String) : Bool :=
  containsSubL s.toList pat.toList

/-- Collapse every run of non-alphanumeric characters to one underscore
(worker; the flag records whether a run is in progress). -/
def collapseRunsAux : List Char → Bool → List Char
  | [], _ => []
  | c :: cs, inRun =>
    if c.isAlphanum then c :: collapseRunsAux cs false
    else if inRun then collapseRunsAux cs true
    else '_' :: collapseRunsAux cs true

/-- Every run of non-alphanumeric characters collapsed to a single
underscore, per the words of the spec's identifier rule. -/
def collapseRuns (s : String) : String :=
  String.mk (collapseRunsAux s.toList false)

/-- The generated identifier as the spec sentence describes it:
lower-cased method, two underscores, then the path with runs of
non-alphanumeric characters collapsed to single underscores. -/
def claimGenOperationId (method path : String) : String :=
  method ++ "__" ++ collapseRuns path

/-- The fixed content-type preference order of the spec. -/
def preferenceOrder : List String :=
  ["application/json", "application/xml", "text/xml",
   "application/x-www-form-urlencoded", "multipart/form-data"]

/-- Content-type selection as the spec sentence describes it: the
caller-specified header if set, else the first preference-order entry
present among the declared media types, else the first declared type. -/
def claimContentType (callerHeader : Option String) (declared : List String) : Option String :=
  match callerHeader with
  | some ct => some ct
  | none =>
    match preferenceOrder.find? (fun t => declared.contains t) with
    | some t => some t
    | none => declared.head?

/-- The caller-set Content-Type header as the source reads it (either
capitalisation, JS-truthy). -/
def callerContentType (headers : List (String × String)) : Option String :=
  jsOrOptStr (headers.lookup "Content-Type") (headers.lookup "content-type")

/-- The declared media types of a request body, in declaration order. -/
def declaredMediaTypes (rb : RequestBody) : List String :=
  (rb.content.getD []).map Prod.fst

/-- Array coercion of a string argument as the claim sentence describes
it: parse the string as a structured list, and on parse failure split on
commas and trim — under this reading the result is always a list. -/
def claimArrayStringCoerce (s : String) : JsValue :=
  match jsonParse s with
  | some (.arr xs) => .arr xs
  | _ => .arr ((splitOnComma s).map (fun v => .str (jsTrim v)))

/-- Base URL resolution as the claim sentence describes it: the explicit
override when one is provided, else the first declared server URL, else
a fatal configuration error. -/
def claimBaseUrl (override : Option String) (servers : Option (List Server)) : Except String String :=
  match override with
  | some u => .ok u
  | none =>
    match servers with
    | some (s :: _) => .ok s.url
    | _ => .error "No server URL found in OpenAPI schema and no base URL provided"

/-- The missing-required-parameter descriptions a call collects: one
"name (location)" entry per declared parameter that is required and
absent or null in args, in declaration order. -/
def missingEntries (args : List (String × JsValue)) (params : List Param) : List String :=
  (params.filter (fun p => p.required.getD false && isNullish (jsLookup args p.name))).map
    (fun p => p.name ++ " (" ++ p.«in» ++ ")")

/-- The first coercion failure of the parameter loop: the error of the
first present (non-nullish) parameter whose processParameterValue
throws, if any. -/
def firstCoercionFailure (args : List (String × JsValue)) : List Param → Option String
  | [] => none
  | p :: rest =>
    if isNullish (jsLookup args p.name) then firstCoercionFailure args rest
    else
      match processParameterValue p (jsLookup args p.name) with
      | .error e => some e
      | .ok _ => firstCoercionFailure args rest

/-- Routing a parameter never touches the collected missing list. -/
theorem routeParam_missing (p : Param) (v : JsValue) (st : LoopState) :
    (routeParam p v st).missing = st.missing := by
  unfold routeParam
  split <;> rfl

/-- If some present parameter fails coercion, the loop aborts with
exactly the first such error. -/
theorem processParams_coercion_error (args : List (String × JsValue)) :
    ∀ (params : List Param) (st : LoopState) (e : String),
      firstCoercionFailure args params = some e →
      processParams args params st = .error e := by
  intro params
  induction params with
  | nil => intro st e h; simp [firstCoercionFailure] at h
  | cons p rest ih =>
    intro st e h
    by_cases hn : isNullish (jsLookup args p.name)
    · simp only [firstCoercionFailure, hn, if_pos] at h
      simp only [processParams, hn, if_pos]
      exact ih _ e h
    · simp only [firstCoercionFailure, hn, if_neg, Bool.false_eq_true, not_false_iff] at h
      simp only [processParams, hn, if_neg, Bool.false_eq_true, not_false_iff]
      cases hpv : processParameterValue p (jsLookup args p.name) with
      | error e' =>
        rw [hpv] at h
        simp at h
        simp [h]
      | ok pv =>
        rw [hpv] at h
        exact ih _ e h

/-- If no present parameter fails coercion, the loop succeeds and the
final missing list is the starting one extended by exactly the
missing-required entries, in declaration order. -/
theorem processParams_clean (args : List (String × JsValue)) :
    ∀ (params : List Param) (st : LoopState),
      firstCoercionFailure args params = none →
      ∃ st', processParams args params st = .ok st' ∧
        st'.missing = st.missing ++ missingEntries args params := by
  intro params
  induction params with
  | nil =>
    intro st _
    exact ⟨st, rfl, by simp [missingEntries]⟩
  | cons p rest ih =>
    intro st h
    by_cases hn : isNullish (jsLookup args p.name)
    · simp only [firstCoercionFailure, hn, if_pos] at h
      simp only [processParams, hn, if_pos]
      obtain ⟨st', hrun, hmiss⟩ := ih _ h
      refine ⟨st', hrun, ?_⟩
      rw [hmiss]
      by_cases hr : p.required.getD false
      · simp [missingEntries, List.filter, hr, hn]
      · simp [missingEntries, List.filter, hr, hn]
    · simp only [firstCoercionFailure, hn, if_neg, Bool.false_eq_true, not_false_iff] at h
      simp only [processParams, hn, if_neg, Bool.false_eq_true, not_false_iff]
      cases hpv : processParameterValue p (jsLookup args p.name) with
      | error e' => rw [hpv] at h; simp at h
      | ok pv =>
        rw [hpv] at h
        obtain ⟨st', hrun, hmiss⟩ := ih (routeParam p pv st) h
        refine ⟨st', hrun, ?_⟩
        rw [hmiss, routeParam_missing]
        have hcond : (p.required.getD false && isNullish (jsLookup args p.name)) = false := by
          simp [hn]
        simp [missingEntries, List.filter, hcond]

/-
Spec-modelled SchemaResolver.

The SchemaResolver lives in tool-generator.ts, which is not among the
files under src/ (only its test suites are), so the resolver is modelled
from the spec, section 4.2.
-/

/-- Modelled from the spec: a SchemaNode of the missing tool-generator.ts
— scalar constraint set, object (named properties plus required list),
array, composition, reference pointer, or the permissive/untyped
placeholder the degrade path produces. -/
inductive SchemaNode where
  | scalar (type : Option String)
  | objectS (props : List (String × SchemaNode)) (required : List String)
  | arrayS (item : SchemaNode)
  | comp (kind : String) (members : List SchemaNode)
  | ref (name : String)
  | permissive

/-- Modelled from the spec: the terminal stub emitted when a reference
cycle is detected — it reproduces only the target's declared type and
top-level property names, without recursing into the properties' own
references (property values degrade to the permissive placeholder). -/
def stubOf (defs : List (String × SchemaNode)) (name : String) : SchemaNode :=
  match defs.lookup name with
  | some (.objectS props req) => .objectS (props.map (fun p => (p.1, .permissive))) req
  | some (.scalar t) => .scalar t
  | some (.arrayS _) => .arrayS .permissive
  | some (.comp k _) => .comp k []
  | some (.ref _) => .permissive
  | some .permissive => .permissive
  | none => .permissive

/-- Modelled from the spec: resolve(schema, pathStack) of the missing
tool-generator.ts.  References already on the path stack become terminal
stubs; otherwise the target is expanded with the pointer pushed onto the
stack.  The Nat argument is the spec's hard recursion-depth bound
(exhaustion degrades to the permissive placeholder); it is defined
through Nat.rec so that it is structural and kernel-reducible, and all
children of one node are resolved at the same remaining depth. -/
def resolveSchema (defs : List (String × SchemaNode)) : Nat → SchemaNode → List String → SchemaNode :=
  fun n =>
    Nat.rec (motive := fun _ => SchemaNode → List String → SchemaNode)
      (fun _ _ => .permissive)
      (fun _ prev s stack =>
        match s with
        | .scalar t => .scalar t
        | .objectS props req => .objectS (props.map (fun p => (p.1, prev p.2 stack))) req
        | .arrayS item => .arrayS (prev item stack)
        | .comp k ms => .comp k (ms.map (fun m => prev m stack))
        | .ref name =>
          if stack.contains name then stubOf defs name
          else
            match defs.lookup name with
            | some target => prev target (name :: stack)
            | none => .permissive
        | .permissive => .permissive)
      n

/-- Modelled from the spec: the hard recursion-depth bound (the spec
fixes its existence, not its value). -/
def maxResolveDepth : Nat := 10

/-- Depth-bounded reference-freeness check: refCheck m s = true says no
reference pointer occurs in s within m levels; if this holds for every m
the tree is reference-free outright. -/
def refCheck : Nat → SchemaNode → Bool :=
  fun n =>
    Nat.rec (motive := fun _ => SchemaNode → Bool)
      (fun _ => true)
      (fun _ prev s =>
        match s with
        | .scalar _ => true
        | .objectS props _ => props.all (fun p => prev p.2)
        | .arrayS item => prev item
        | .comp _ ms => ms.all prev
        | .ref _ => false
        | .permissive => true)
      n

/-- Top-level property names of a resolved schema. -/
def topPropNames : SchemaNode → List String
  | .objectS props _ => props.map Prod.fst
  | _ => []

/-- The circular Entity/Metadata schema table of the integration test
(src/src/__tests__/integration.test.ts lines 397-467): Entity.parent and
Entity.children refer back to Entity, Entity.metadata refers to
Metadata, and Metadata.entity refers back to Entity. -/
def entityDefs : List (String × SchemaNode) :=
  [("Entity", .objectS
      [("id", .scalar (some "string")),
       ("parent", .ref "Entity"),
       ("children", .arrayS (.ref "Entity")),
       ("metadata", .ref "Metadata")] ["id"]),
   ("Metadata", .objectS
      [("tags", .arrayS (.scalar (some "string"))),
       ("entity", .ref "Entity")] [])]

/-
Equation lemmas for the Nat.rec-defined resolver and checker, and the
reference-freeness invariant.
-/

/-- Depth exhaustion degrades to the permissive placeholder. -/
theorem resolveSchema_zero (defs : List (String × SchemaNode)) (s : SchemaNode) (stack : List String) :
    resolveSchema defs 0 s stack = .permissive := rfl

/-- Scalars resolve to themselves. -/
theorem resolveSchema_succ_scalar (defs : List (String × SchemaNode)) (n : Nat) (t : Option String) (stack : List String) :
    resolveSchema defs (n + 1) (.scalar t) stack = .scalar t := rfl

/-- Objects resolve each property at the remaining depth. -/
theorem resolveSchema_succ_object (defs : List (String × SchemaNode)) (n : Nat)
    (props : List (String × SchemaNode)) (req : List String) (stack : List String) :
    resolveSchema defs (n + 1) (.objectS props req) stack
      = .objectS (props.map (fun p => (p.1, resolveSchema defs n p.2 stack))) req := rfl

/-- Arrays resolve their item schema. -/
theorem resolveSchema_succ_array (defs : List (String × SchemaNode)) (n : Nat) (item : SchemaNode) (stack : List String) :
    resolveSchema defs (n + 1) (.arrayS item) stack = .arrayS (resolveSchema defs n item stack) := rfl

/-- Compositions resolve every member. -/
theorem resolveSchema_succ_comp (defs : List (String × SchemaNode)) (n : Nat)
    (k : String) (ms : List SchemaNode) (stack : List String) :
    resolveSchema defs (n + 1) (.comp k ms) stack
      = .comp k (ms.map (fun m => resolveSchema defs n m stack)) := rfl

/-- References stub out when already on the path stack, otherwise expand
their target with the pointer pushed. -/
theorem resolveSchema_succ_ref (defs : List (String × SchemaNode)) (n : Nat)
    (name : String) (stack : List String) :
    resolveSchema defs (n + 1) (.ref name) stack
      = (if stack.contains name then stubOf defs name
         else
           match defs.lookup name with
           | some target => resolveSchema defs n target (name :: stack)
           | none => .permissive) := rfl

/-- The permissive placeholder resolves to itself. -/
theorem resolveSchema_succ_permissive (defs : List (String × SchemaNode)) (n : Nat) (stack : List String) :
    resolveSchema defs (n + 1) .permissive stack = .permissive := rfl

/-- The permissive placeholder is reference-free at every depth. -/
theorem refCheck_permissive (m : Nat) : refCheck m .permissive = true := by
  cases m <;> rfl

/-- Scalars are reference-free at every depth. -/
theorem refCheck_scalar (m : Nat) (t : Option String) : refCheck m (.scalar t) = true := by
  cases m <;> rfl

/-- Checker equation at positive depth on objects. -/
theorem refCheck_succ_object (m : Nat) (props : List (String × SchemaNode)) (req : List String) :
    refCheck (m + 1) (.objectS props req) = props.all (fun p => refCheck m p.2) := rfl

/-- Checker equation at positive depth on arrays. -/
theorem refCheck_succ_array (m : Nat) (item : SchemaNode) :
    refCheck (m + 1) (.arrayS item) = refCheck m item := rfl

/-- Checker equation at positive depth on compositions. -/
theorem refCheck_succ_comp (m : Nat) (k : String) (ms : List SchemaNode) :
    refCheck (m + 1) (.comp k ms) = ms.all (refCheck m) := rfl

/-- Terminal stubs are reference-free at every depth. -/
theorem refCheck_stubOf (defs : List (String × SchemaNode)) (name : String) (m : Nat) :
    refCheck m (stubOf defs name) = true := by
  unfold stubOf
  cases h : defs.lookup name with
  | none => exact refCheck_permissive m
  | some s =>
    cases s with
    | scalar t => exact refCheck_scalar m t
    | objectS props req =>
      cases m with
      | zero => rfl
      | succ m =>
        rw [refCheck_succ_object]
        simp only [List.all_map, List.all_eq_true]
        intro p _
        exact refCheck_permissive m
    | arrayS item =>
      cases m with
      | zero => rfl
      | succ m => rw [refCheck_succ_array]; exact refCheck_permissive m
    | comp k ms =>
      cases m with
      | zero => rfl
      | succ m => rw [refCheck_succ_comp]; simp
    | ref n2 => exact refCheck_permissive m
    | permissive => exact refCheck_permissive m

/-- The resolver's output never contains a reference pointer: at every
inspection depth m the reference-freeness check passes. -/
theorem refCheck_resolveSchema (defs : List (String × SchemaNode)) :
    ∀ (n : Nat) (s : SchemaNode) (stack : List String) (m : Nat),
      refCheck m (resolveSchema defs n s stack) = true := by
  intro n
  induction n with
  | zero =>
    intro s stack m
    rw [resolveSchema_zero]
    exact refCheck_permissive m
  | succ n ih =>
    intro s stack m
    cases s with
    | scalar t => rw [resolveSchema_succ_scalar]; exact refCheck_scalar m t
    | permissive => rw [resolveSchema_succ_permissive]; exact refCheck_permissive m
    | objectS props req =>
      rw [resolveSchema_succ_object]
      cases m with
      | zero => rfl
      | succ m =>
        rw [refCheck_succ_object]
        simp only [List.all_map, List.all_eq_true, Function.comp]
        intro p _
        exact ih p.2 stack m
    | arrayS item =>
      rw [resolveSchema_succ_array]
      cases m with
      | zero => rfl
      | succ m => rw [refCheck_succ_array]; exact ih item stack m
    | comp k ms =>
      rw [resolveSchema_succ_comp]
      cases m with
      | zero => rfl
      | succ m =>
        rw [refCheck_succ_comp]
        simp only [List.all_map, List.all_eq_true, Function.comp]
        intro x _
        exact ih x stack m
    | ref name =>
      rw [resolveSchema_succ_ref]
      by_cases hc : stack.contains name
      · rw [if_pos hc]; exact refCheck_stubOf defs name m
      · rw [if_neg hc]
        cases hl : defs.lookup name with
        | some target => exact ih target (name :: stack) m
        | none => exact refCheck_permissive m

/-
Claim theorems.
-/

/-- C5: schema resolution always terminates on every input schema,
including self- and mutually-referential graphs — resolveSchema is a
total computable function — and returns a finite reference-free tree (so
it is JSON-serializable and raises nothing): the reference-freeness
check passes at every inspection depth for every input, and on the
circular Entity/Metadata table of the integration test the resolved
Entity schema retains the top-level property names id, parent, children
and metadata. -/
theorem c5_schema_resolution_terminates :
    (∀ (defs : List (String × SchemaNode)) (n : Nat) (s : SchemaNode)
        (stack : List String) (m : Nat),
        refCheck m (resolveSchema defs n s stack) = true)
    ∧ topPropNames (resolveSchema entityDefs maxResolveDepth (.ref "Entity") [])
        = ["id", "parent", "children", "metadata"] :=
  ⟨fun defs n s stack m => refCheck_resolveSchema defs n s stack m, rfl⟩

/-- C2 counterexample: the identifier rule as the claim words it (method,
two underscores, then the path with runs of non-alphanumeric characters
collapsed to single underscores) does not produce the identifier the
code generates at the claim's own example — the code separates with one
underscore and replaces each non-alphanumeric character individually, so
runs are not collapsed ({id} contributes two underscores, not one). -/
theorem c2_counterexample :
    claimGenOperationId "get" "/api/v1/complex-path/{id}"
      ≠ generatedOperationId "get" "/api/v1/complex-path/{id}"
    ∧ generatedOperationId "get" "/api/v1/complex-path/{id}" = "get__api_v1_complex_path__id_"
    ∧ claimGenOperationId "get" "/api/v1/complex-path/{id}" = "get___api_v1_complex_path_id_" :=
  ⟨by decide, rfl, rfl⟩

/-- C2 (amended): for a path+method combination lacking an operation
identifier, the generated identifier is the lower-cased method, ONE
underscore, then the path template with EACH non-alphanumeric character
replaced by an underscore (runs are not collapsed; the apparent double
underscore after the method comes from the path's leading slash); in
particular method get with path /api/v1/complex-path/{id} yields
get__api_v1_complex_path__id_. -/
theorem c2_generated_identifier (pathKey : String) (op : Operation)
    (hid : op.operationId = none) :
    (parseOperations [(pathKey, some { get := some op })]).map Prod.fst
      = [generatedOperationId "get" pathKey]
    ∧ generatedOperationId "get" "/api/v1/complex-path/{id}" = "get__api_v1_complex_path__id_"
    ∧ ∀ method : String, operationKey method pathKey op = generatedOperationId method pathKey := by
  have hkey : ∀ method : String, operationKey method pathKey op = generatedOperationId method pathKey := by
    intro method
    simp [operationKey, jsOrStr, truthyStr, hid]
  refine ⟨?_, rfl, hkey⟩
  show [operationKey "get" pathKey op] = [generatedOperationId "get" pathKey]
  rw [hkey]

/-- C2 witness: the amended theorem applied to the test document of the
missing-identifier test. -/
theorem c2_generated_identifier_witness :
    (parseOperations [("/api/v1/complex-path/{id}", some { get := some ({} : Operation) })]).map Prod.fst
      = [generatedOperationId "get" "/api/v1/complex-path/{id}"] :=
  (c2_generated_identifier "/api/v1/complex-path/{id}" {} rfl).1

/-- The source's if-chain over the declared media types agrees with a
find? over the spec's preference-order list. -/
theorem preferenceChainAgrees (l : List String) :
    (if l.contains "application/json" then some "application/json"
     else if l.contains "application/xml" then some "application/xml"
     else if l.contains "text/xml" then some "text/xml"
     else if l.contains "application/x-www-form-urlencoded" then
       some "application/x-www-form-urlencoded"
     else if l.contains "multipart/form-data" then some "multipart/form-data"
     else l.head?)
    = (match preferenceOrder.find? (fun t => l.contains t) with
       | some t => some t
       | none => l.head?) := by
  simp only [preferenceOrder, List.find?]
  by_cases h1 : "application/json" ∈ l
  · simp [h1]
  · by_cases h2 : "application/xml" ∈ l
    · simp [h1, h2]
    · by_cases h3 : "text/xml" ∈ l
      · simp [h1, h2, h3]
      · by_cases h4 : "application/x-www-form-urlencoded" ∈ l
        · simp [h1, h2, h3, h4]
        · by_cases h5 : "multipart/form-data" ∈ l
          · simp [h1, h2, h3, h4, h5]
          · simp [h1, h2, h3, h4, h5]

/-- C3: determineContentType selects exactly as the spec describes: the
caller-set Content-Type header unchanged when one is set, else the first
entry of the fixed preference order (application/json, application/xml,
text/xml, application/x-www-form-urlencoded, multipart/form-data) that
appears among the declared media types, else the first declared type; in
particular a body declaring multipart/form-data and application/json
with no caller header selects application/json. -/
theorem c3_content_type_selection :
    (∀ (rb : RequestBody) (headers : List (String × String)),
        determineContentType rb headers
          = claimContentType (callerContentType headers) (declaredMediaTypes rb))
    ∧ determineContentType
        { content := some [("multipart/form-data", {}), ("application/json", {})] } []
        = some "application/json" := by
  refine ⟨?_, rfl⟩
  intro rb headers
  unfold determineContentType claimContentType callerContentType declaredMediaTypes
  cases jsOrOptStr (headers.lookup "Content-Type") (headers.lookup "content-type") with
  | some ct => rfl
  | none => exact preferenceChainAgrees ((rb.content.getD []).map Prod.fst)

/-- C1 (amended): on a registered identifier with one or more required
parameters absent or null, and with no present parameter failing type
coercion, executeOperation fails before assembling any request config
(so no network I/O happens) with the single aggregated error naming, in
declaration order, every missing required parameter together with its
location; each required absent parameter contributes its "name
(location)" entry to the aggregated list.  (When a present parameter
does fail coercion, the call still fails before any I/O, but with that
coercion error instead — see the counterexample.) -/
theorem c1_missing_required_aggregated
    (defaultHeaders : List (String × String)) (ops : List (String × OperationInfo))
    (baseUrl operationId : String) (args : List (String × JsValue)) (info : OperationInfo)
    (hop : ops.lookup operationId = some info)
    (hmiss : missingEntries args info.parameters ≠ [])
    (hclean : firstCoercionFailure args info.parameters = none) :
    executeOperation defaultHeaders ops baseUrl operationId args
      = .error ("Missing required parameters: "
          ++ joinList ", " (missingEntries args info.parameters))
    ∧ ∀ p ∈ info.parameters, p.required.getD false = true →
        isNullish (jsLookup args p.name) = true →
        (p.name ++ " (" ++ p.«in» ++ ")") ∈ missingEntries args info.parameters := by
  constructor
  · obtain ⟨st', hrun, hm⟩ := processParams_clean args info.parameters
      { url := baseUrl ++ info.path, query := [], headers := [], missing := [] } hclean
    simp only [List.nil_append] at hm
    have hne : (missingEntries args info.parameters).isEmpty = false := by
      rw [List.isEmpty_eq_false]
      exact hmiss
    simp [executeOperation, hop, hrun, hm, hne]
  · intro p hp hreq hnull
    apply List.mem_map.mpr
    exact ⟨p, List.mem_filter.mpr ⟨hp, by simp [hreq, hnull]⟩, rfl⟩

/-- C1 witness input: a single required path parameter. -/
def c1wInfo : OperationInfo :=
  { method := "GET", path := "/t/{p}", operation := {},
    parameters := [{ name := "p", «in» := "path", required := some true,
                     schema := some { type := some "string" } }],
    requestBody := none }

/-- C1 witness: calling the operation with no arguments yields the one
aggregated missing-parameter error. -/
theorem c1_missing_required_aggregated_witness :
    executeOperation [] [("op1", c1wInfo)] "https://x" "op1" []
      = .error "Missing required parameters: p (path)" :=
  (c1_missing_required_aggregated [] [("op1", c1wInfo)] "https://x" "op1" []
    c1wInfo rfl (by decide) rfl).1

/-- C1 counterexample input: a required path parameter p plus an
optional integer query parameter q. -/
def c1xInfo : OperationInfo :=
  { method := "GET", path := "/t/{p}", operation := {},
    parameters := [{ name := "p", «in» := "path", required := some true,
                     schema := some { type := some "string" } },
                   { name := "q", «in» := "query",
                     schema := some { type := some "integer" } }],
    requestBody := none }

/-- C1 counterexample: the required parameter p is absent, yet the call
fails with the coercion error of the present parameter q, whose message
does not name p or its location — so the claim's promise that the error
names every missing required parameter does not hold as stated. -/
theorem c1_counterexample :
    isNullish (jsLookup [("q", JsValue.str "abc")] "p") = true
    ∧ executeOperation [] [("op1", c1xInfo)] "https://x" "op1" [("q", .str "abc")]
        = .error "Parameter q must be a valid number, got: abc"
    ∧ containsSub "Parameter q must be a valid number, got: abc" "p (path)" = false :=
  ⟨rfl, rfl, by decide⟩

/-- C4 (amended): every parameter validation failure of executeOperation
is raised before any network I/O (the result is an error, produced
before any request config exists).  Missing-required-parameter failures
are aggregated across all missing parameters into one message; but
type-coercion failures are NOT aggregated: the first coercion failure in
declaration order is raised alone, and it preempts the missing-parameter
aggregate. -/
theorem c4_validation_before_io
    (defaultHeaders : List (String × String)) (ops : List (String × OperationInfo))
    (baseUrl operationId : String) (args : List (String × JsValue)) (info : OperationInfo)
    (hop : ops.lookup operationId = some info) :
    (∀ e, firstCoercionFailure args info.parameters = some e →
        executeOperation defaultHeaders ops baseUrl operationId args = .error e)
    ∧ (firstCoercionFailure args info.parameters = none →
        missingEntries args info.parameters ≠ [] →
        executeOperation defaultHeaders ops baseUrl operationId args
          = .error ("Missing required parameters: "
              ++ joinList ", " (missingEntries args info.parameters))) := by
  constructor
  · intro e he
    have hrun := processParams_coercion_error args info.parameters
      { url := baseUrl ++ info.path, query := [], headers := [], missing := [] } e he
    simp only [executeOperation, hop, hrun]
  · intro hclean hmiss
    obtain ⟨st', hrun, hm⟩ := processParams_clean args info.parameters
      { url := baseUrl ++ info.path, query := [], headers := [], missing := [] } hclean
    simp only [List.nil_append] at hm
    have hne : (missingEntries args info.parameters).isEmpty = false := by
      rw [List.isEmpty_eq_false]
      exact hmiss
    simp [executeOperation, hop, hrun, hm, hne]

/-- C4 witness input: one integer query parameter. -/
def c4wInfo : OperationInfo :=
  { method := "GET", path := "/t", operation := {},
    parameters := [{ name := "q", «in» := "query",
                     schema := some { type := some "integer" } }],
    requestBody := none }

/-- C4 witness: a coercion failure is raised as an error before any
request config is assembled. -/
theorem c4_validation_before_io_witness :
    executeOperation [] [("w4", c4wInfo)] "b" "w4" [("q", .str "xyz")]
      = .error "Parameter q must be a valid number, got: xyz" :=
  (c4_validation_before_io [] [("w4", c4wInfo)] "b" "w4" [("q", .str "xyz")] c4wInfo rfl).1
    "Parameter q must be a valid number, got: xyz" rfl

/-- C4 counterexample input: two integer query parameters. -/
def c4xInfo : OperationInfo :=
  { method := "GET", path := "/t", operation := {},
    parameters := [{ name := "q1", «in» := "query",
                     schema := some { type := some "integer" } },
                   { name := "q2", «in» := "query",
                     schema := some { type := some "integer" } }],
    requestBody := none }

/-- C4 counterexample: two parameters fail coercion in one call, yet the
single raised error names only the first — the message does not mention
q2 even though q2's value "def" also fails coercion — so validation
failures are not aggregated across all offending parameters as the
claim states. -/
theorem c4_counterexample :
    executeOperation [] [("op", c4xInfo)] "b" "op" [("q1", .str "abc"), ("q2", .str "def")]
      = .error "Parameter q1 must be a valid number, got: abc"
    ∧ processParameterValue
        { name := "q2", «in» := "query", schema := some { type := some "integer" } }
        (.str "def")
        = .error "Parameter q2 must be a valid number, got: def"
    ∧ containsSub "Parameter q1 must be a valid number, got: abc" "q2" = false :=
  ⟨rfl, rfl, by decide⟩

/-- C6 counterexample: for an array-typed parameter the string "123" —
which is not a structured list, so under the claim's rule it would fall
back to the comma split and give the list ["123"] — coerces instead to
the parsed JSON scalar 123, which is not a list at all. -/
theorem c6_counterexample :
    processParameterValue
      { name := "a", «in» := "query", schema := some { type := some "array" } }
      (.str "123")
      = .ok (.num ((123 : Nat) : Rat))
    ∧ claimArrayStringCoerce "123" = .arr [.str "123"]
    ∧ JsValue.num ((123 : Nat) : Rat) ≠ JsValue.arr [.str "123"] :=
  ⟨rfl, rfl, fun h => nomatch h⟩

/-- C6 (amended): for every parameter whose declared schema type is
array, an array value passes through unchanged, and a string value is
first parsed as JSON — any successfully parsed JSON value is used as is,
even when it is not a list — falling back on JSON parse failure to
splitting on commas with each token trimmed; in particular the string
"a,b,c" coerces to the array ["a","b","c"]. -/
theorem c6_array_coercion (p : Param)
    (hschema : p.schema = some { type := some "array" }) :
    (∀ xs, processParameterValue p (.arr xs) = .ok (.arr xs))
    ∧ (∀ s v, jsonParse s = some v → processParameterValue p (.str s) = .ok v)
    ∧ (∀ s, jsonParse s = none →
        processParameterValue p (.str s)
          = .ok (.arr ((splitOnComma s).map (fun v => .str (jsTrim v)))))
    ∧ processParameterValue p (.str "a,b,c")
        = .ok (.arr [.str "a", .str "b", .str "c"]) := by
  refine ⟨?_, ?_, ?_, ?_⟩
  · intro xs
    simp [processParameterValue, hschema]
  · intro s v hparse
    simp [processParameterValue, hschema, hparse]
  · intro s hparse
    simp [processParameterValue, hschema, hparse]
  · simp only [processParameterValue, hschema]
    rw [show jsonParse "a,b,c" = none from rfl]
    rfl

/-- C6 witness: the amended theorem applied at the claim's own example
input. -/
theorem c6_array_coercion_witness :
    processParameterValue
      { name := "a", «in» := "query", schema := some { type := some "array" } }
      (.str "a,b,c")
      = .ok (.arr [.str "a", .str "b", .str "c"]) :=
  (c6_array_coercion
    { name := "a", «in» := "query", schema := some { type := some "array" } } rfl).2.2.2

/-- C7: initializeClient resolves the base URL exactly as the claim
states — the explicit override when a (truthy) one is provided, else the
first declared server URL, and when neither exists it fails with the
fatal configuration error, producing no client state at all (hence no
operation index and no usable tool); the second conjunct shows the error
on the empty configuration. -/
theorem c7_base_url_resolution :
    (∀ (options : ServerOptions) (schema : OpenAPIDocument),
        Except.map ClientState.baseUrl (initializeClient options schema)
          = claimBaseUrl (truthyStr options.baseUrl) schema.servers)
    ∧ initializeClient {} {}
        = .error "No server URL found in OpenAPI schema and no base URL provided" := by
  refine ⟨?_, rfl⟩
  intro options schema
  unfold initializeClient claimBaseUrl getBaseUrl
  cases truthyStr options.baseUrl with
  | some u => rfl
  | none =>
    cases hs : schema.servers with
    | none => rfl
    | some servers =>
      cases servers with
      | nil => rfl
      | cons s rest => rfl

/-- C8: when two operations in the document produce the same identifier,
the operation index keeps only the entry parsed last — the lookup used
by executeOperation returns the later operation's record (method, path,
parameters, request body) — and the index has one entry where the
document has two operations. -/
theorem c8_duplicate_identifier_overwrites
    (p1 p2 : String) (op1 op2 : Operation) (i : String)
    (h1 : op1.operationId = some i) (h2 : op2.operationId = some i) (hi : i ≠ "") :
    (parseOperations [(p1, some { get := some op1 }), (p2, some { get := some op2 })]).lookup i
      = some { method := "GET", path := p2, operation := op2,
               parameters := op2.parameters.getD [], requestBody := op2.requestBody }
    ∧ (parseOperations [(p1, some { get := some op1 }), (p2, some { get := some op2 })]).length
        = 1 := by
  have hkey1 : operationKey "get" p1 op1 = i := by
    simp [operationKey, jsOrStr, truthyStr, h1, hi]
  have hkey2 : operationKey "get" p2 op2 = i := by
    simp [operationKey, jsOrStr, truthyStr, h2, hi]
  have hparse :
      parseOperations [(p1, some { get := some op1 }), (p2, some { get := some op2 })]
        = [(i, { method := jsToUpper "get", path := p2, operation := op2,
                 parameters := op2.parameters.getD [], requestBody := op2.requestBody })] := by
    show jsAssocSet (jsAssocSet [] (operationKey "get" p1 op1) _) (operationKey "get" p2 op2) _ = _
    rw [hkey1, hkey2]
    simp [jsAssocSet]
  rw [hparse]
  constructor
  · simp [List.lookup]
    rfl
  · rfl

/-- C8 witness: two distinct paths declaring the same explicit
operationId "dup"; the index holds one entry, the one for the second
path. -/
theorem c8_duplicate_identifier_overwrites_witness :
    (parseOperations
        [("/a", some { get := some { operationId := some "dup" } }),
         ("/b", some { get := some { operationId := some "dup" } })]).lookup "dup"
      = some { method := "GET", path := "/b", operation := { operationId := some "dup" },
               parameters := [], requestBody := none }
    ∧ (parseOperations
        [("/a", some { get := some { operationId := some "dup" } }),
         ("/b", some { get := some { operationId := some "dup" } })]).length = 1 :=
  c8_duplicate_identifier_overwrites "/a" "/b"
    { operationId := some "dup" } { operationId := some "dup" } "dup" rfl rfl (by decide)

/-- C9: for a parameter declared integer or number, the empty string and
every whitespace-only string coerce to the number 0 instead of raising a
coercion error, because Number maps such strings to 0. -/
theorem c9_whitespace_string_zero (p : Param) (sch : ParamSchema) (s : String)
    (hschema : p.schema = some sch)
    (htype : sch.type = some "integer" ∨ sch.type = some "number")
    (hws : ∀ c ∈ s.toList, isJsWhitespace c = true) :
    processParameterValue p (.str s) = .ok (.num 0) := by
  have hdrop : s.toList.dropWhile isJsWhitespace = [] := by
    rw [List.dropWhile_eq_nil_iff]
    exact fun c hc => hws c hc
  have htrim : jsTrim s = String.mk [] := by
    unfold jsTrim
    rw [hdrop]
    rfl
  have hnum : jsToNumber (.str s) = some 0 := by
    show jsStringToNumber s = some 0
    unfold jsStringToNumber
    rw [htrim]
    rfl
  have hco : coerceNumber p (.str s) = .ok (.num 0) := by
    unfold coerceNumber
    rw [hnum]
  rcases htype with h | h <;>
    simp [processParameterValue, hschema, h, hco]

/-- C9 witness: the empty string and a whitespace-only string both
coerce to 0 for an integer-typed parameter. -/
theorem c9_whitespace_string_zero_witness :
    processParameterValue
      { name := "n", «in» := "query", schema := some { type := some "integer" } }
      (.str "") = .ok (.num 0)
    ∧ processParameterValue
      { name := "n", «in» := "query", schema := some { type := some "integer" } }
      (.str " \t ") = .ok (.num 0) :=
  ⟨c9_whitespace_string_zero _ _ "" rfl (Or.inl rfl) (by decide),
   c9_whitespace_string_zero _ _ " \t " rfl (Or.inl rfl) (by decide)⟩

/-- C10: for an array-typed parameter, a string that parses as JSON of a
non-array type coerces to that parsed scalar — "123" coerces to the
number 123 and "true" to the boolean true — so the coerced value of an
array-typed parameter is not guaranteed to be an array. -/
theorem c10_array_param_scalar_json (p : Param)
    (hschema : p.schema = some { type := some "array" }) :
    (∀ s v, jsonParse s = some v → processParameterValue p (.str s) = .ok v)
    ∧ processParameterValue p (.str "123") = .ok (.num ((123 : Nat) : Rat))
    ∧ processParameterValue p (.str "true") = .ok (.bool true)
    ∧ (∀ xs, JsValue.num ((123 : Nat) : Rat) ≠ .arr xs)
    ∧ (∀ xs, JsValue.bool true ≠ .arr xs) := by
  refine ⟨?_, ?_, ?_, fun xs h => JsValue.noConfusion h, fun xs h => JsValue.noConfusion h⟩
  · intro s v hparse
    simp [processParameterValue, hschema, hparse]
  · simp only [processParameterValue, hschema]
    rw [show jsonParse "123" = some (.num ((123 : Nat) : Rat)) from rfl]
  · simp only [processParameterValue, hschema]
    rw [show jsonParse "true" = some (.bool true) from rfl]

/-- C10 witness: the scalar-JSON coercion at the concrete inputs. -/
theorem c10_array_param_scalar_json_witness :
    processParameterValue
      { name := "a", «in» := "query", schema := some { type := some "array" } }
      (.str "123") = .ok (.num ((123 : Nat) : Rat)) :=
  (c10_array_param_scalar_json
    { name := "a", «in» := "query", schema := some { type := some "array" } } rfl).2.1

end OpenapiMcp
